import Mathlib

/-!
# Verification of the wataru-api request statistics tracker

Shallow embedding of the request tracker of the repository and of the gateway
middleware that feeds it.

* `src/utils/requestTracker.js` ships two interchangeable backends:
  an in-memory store (a JS `Map` of per-endpoint counts, a `Map` of per-day
  counts, a running total and a start time) and a sqlite-backed store.
  The in-memory backend is embedded as pure state transformers over
  `MemState`; JS `Map` objects are embedded as insertion-ordered
  association lists (`mapGet`/`mapSet` mirror `Map.get`/`Map.set`).
  Calendar days (JS `Date.toDateString()` strings, one per calendar day)
  are embedded as integer day numbers; timestamps as integer milliseconds.
* For the sqlite backend, `getStatistics` (its only claim-relevant control
  flow, the try/catch fallback) is embedded over abstract query outcomes.
* The response-method monkey-patching middleware of src/index.js is embedded
  by threading an invocation counter through the patched `json`/`send`/`end`
  chain, using the fact (Express 4) that the original framework `json`
  calls `this.send` and the original `send` calls `this.end`, both of which
  resolve to the patched methods on the live response object.
-/

set_option autoImplicit false

namespace WataruApi

/-! ## JS Map as an insertion-ordered association list -/

variable {α : Type} {β : Type}

/-- JS `Map.get k` : first (unique) binding of `k`, if any. -/
def mapGet [DecidableEq α] (k : α) : List (α × β) → Option β
  | [] => none
  | (k', v) :: rest => if k' = k then some v else mapGet k rest

/-- JS `Map.set k v` : update the binding of `k` in place if present
(keeping its position, as JS `Map` does), else append the new binding at
the end (JS `Map` iteration is in insertion order). -/
def mapSet [DecidableEq α] (k : α) (v : β) : List (α × β) → List (α × β)
  | [] => [(k, v)]
  | (k', v') :: rest => if k' = k then (k, v) :: rest else (k', v') :: mapSet k v rest

@[simp] theorem mapGet_nil [DecidableEq α] (k : α) : mapGet k ([] : List (α × β)) = none := rfl

theorem mapGet_mapSet_self [DecidableEq α] (k : α) (v : β) (l : List (α × β)) :
    mapGet k (mapSet k v l) = some v := by
  induction l with
  | nil => simp [mapGet, mapSet]
  | cons hd tl ih =>
    obtain ⟨k', v'⟩ := hd
    by_cases h : k' = k
    · simp [mapGet, mapSet, h]
    · simp [mapGet, mapSet, h, ih]

theorem mapGet_mapSet_ne [DecidableEq α] (k k' : α) (v : β) (l : List (α × β))
    (h : k ≠ k') : mapGet k' (mapSet k v l) = mapGet k' l := by
  induction l with
  | nil => simp [mapGet, mapSet, h]
  | cons hd tl ih =>
    obtain ⟨k'', v''⟩ := hd
    by_cases h2 : k'' = k
    · subst h2
      simp [mapGet, mapSet, h]
    · by_cases h3 : k'' = k'
      · subst h3
        simp [mapGet, mapSet, h2]
      · simp [mapGet, mapSet, h2, h3, ih]

/-! ## Endpoint keys

`requestTracker.js` (both backends) builds the counter key for a tracked
request as `method.toUpperCase() + " " + apiPath`. -/

/-- JS `String.prototype.toUpperCase()` (ASCII fragment, which covers HTTP
method strings): upper-case every character. Stated over the character
list so the kernel can evaluate it on literals. -/
def jsToUpperCase (s : String) : String := String.mk (s.data.map Char.toUpper)

/-- JS `String.prototype.startsWith(pre)`, over the character lists. -/
def jsStartsWith (s pre : String) : Bool := pre.data.isPrefixOf s.data

/-- The canonical endpoint key `METHOD + space + path` built by
`trackRequest` / `getRequestCount`. -/
def endpointKey (apiPath method : String) : String :=
  jsToUpperCase method ++ " " ++ apiPath

/-! ## In-memory backend state

`class RequestTracker` (in-memory variant): `requestCounts : Map`,
`totalRequests : number`, `dailyRequests : Map`, `startTime : Date`. -/

/-- State of the in-memory `RequestTracker`. Days are integer day numbers
(standing for the injective `Date.toDateString()` day strings), times are
integer milliseconds. -/
structure MemState where
  requestCounts : List (String × Nat)
  totalRequests : Nat
  dailyRequests : List (Int × Nat)
  startTime : Int
  deriving Repr, DecidableEq

/-- The constructor: empty maps, zero total, `startTime = new Date()`. -/
def MemState.mk0 (now : Int) : MemState :=
  { requestCounts := [], totalRequests := 0, dailyRequests := [], startTime := now }

/-- `trackRequest(apiPath, method)` of the in-memory backend: increment the
endpoint counter (create at 1), increment `totalRequests`, increment
the day bucket of today (create at 1). `today` is the day number read from the
clock during the call (`new Date().toDateString()`). -/
def trackRequest (apiPath method : String) (today : Int) (st : MemState) : MemState :=
  let key := endpointKey apiPath method
  let currentCount := (mapGet key st.requestCounts).getD 0
  let st1 := { st with
    requestCounts := mapSet key (currentCount + 1) st.requestCounts,
    totalRequests := st.totalRequests + 1 }
  let dailyCount := (mapGet today st1.dailyRequests).getD 0
  { st1 with dailyRequests := mapSet today (dailyCount + 1) st1.dailyRequests }

/-! ### Read methods

Each read method of the in-memory backend is embedded as a state
transformer `MemState → result × MemState` so that its (absence of)
effect on the store is part of the embedding: the JS method bodies contain
no assignment to `this`, hence every transformer returns the input state
unchanged in the second component. -/

/-- `getRequestCount(apiPath, method)`: `requestCounts.get(key) || 0`. -/
def getRequestCountM (apiPath method : String) (st : MemState) : Nat × MemState :=
  ((mapGet (endpointKey apiPath method) st.requestCounts).getD 0, st)

/-- `getAllRequestCounts()`: `Object.fromEntries(this.requestCounts)` —
the whole endpoint-count map, in insertion order. -/
def getAllRequestCountsM (st : MemState) : List (String × Nat) × MemState :=
  (st.requestCounts, st)

/-- `getTotalRequests()`. -/
def getTotalRequestsM (st : MemState) : Nat × MemState :=
  (st.totalRequests, st)

/-- `getTodayRequests()`: `dailyRequests.get(today) || 0`, with `today`
read from the clock. -/
def getTodayRequestsM (today : Int) (st : MemState) : Nat × MemState :=
  ((mapGet today st.dailyRequests).getD 0, st)

/-- `getRequestsForDate(date)`. -/
def getRequestsForDateM (date : Int) (st : MemState) : Nat × MemState :=
  ((mapGet date st.dailyRequests).getD 0, st)

/-- One entry of `getDailyHistory()`: `{ date, count }`. The third JS field
`shortDate` is a pure locale formatting of `date` and carries no further
information. -/
structure DayEntry where
  date : Int
  count : Nat
  deriving Repr, DecidableEq

/-- `getDailyHistory()`: the loop `for (let i = 6; i >= 0; i--)` pushes, for
each offset `i`, the entry for day `today - i` with count
`dailyRequests.get(dateString) || 0`. Iteration `j` of `List.range 7`
corresponds to loop index `i = 6 - j`. -/
def getDailyHistoryM (today : Int) (st : MemState) : List DayEntry × MemState :=
  ((List.range 7).map (fun j =>
    let i : Int := 6 - (j : Int)
    let d := today - i
    { date := d, count := (mapGet d st.dailyRequests).getD 0 }), st)

/-! ### getTopEndpoints

JS: `Array.from(this.requestCounts.entries()).sort(([,a],[,b]) => b - a)
.slice(0, limit).map(...)`. `Array.prototype.sort` is a stable sort
(ES2019), and the comparator orders by count descending, so the result is
THE stable descending-by-count ordering of the insertion-ordered entry
list; `insertByCountDesc`-based insertion sort below computes exactly that
ordering. -/

/-- Insert an entry into a (descending-by-count) list, before the first
entry whose count is ≤ its own: among equal counts the inserted (earlier
in the original list) entry comes first, which is stability. -/
def insertByCountDesc (x : String × Nat) : List (String × Nat) → List (String × Nat)
  | [] => [x]
  | y :: ys => if y.2 ≤ x.2 then x :: y :: ys else y :: insertByCountDesc x ys

/-- Stable sort by count descending (the unique stable ordering computed by
the JS `sort(([,a],[,b]) => b - a)`). -/
def sortByCountDesc : List (String × Nat) → List (String × Nat)
  | [] => []
  | x :: xs => insertByCountDesc x (sortByCountDesc xs)

/-- `getTopEndpoints(limit)`: stable-sort the entries by count descending
and take the first `limit`. -/
def getTopEndpointsM (limit : Nat) (st : MemState) : List (String × Nat) × MemState :=
  ((sortByCountDesc st.requestCounts).take limit, st)

/-! ### getStatistics and reset -/

/-- The snapshot object assembled by `getStatistics()` (both backends). -/
structure Snapshot where
  totalRequests : Nat
  todayRequests : Nat
  uptimeHours : Int
  topEndpoints : List (String × Nat)
  requestCounts : List (String × Nat)
  dailyHistory : List DayEntry
  currentDate : String
  deriving Repr, DecidableEq

/-- `getStatistics()` of the in-memory backend: assembles the snapshot from
the other read methods; `uptimeHours = Math.floor((now - startTime) /
(1000*60*60))`. `currentDate` is the locale-formatted clock reading,
passed in as an abstract string. -/
def getStatisticsM (now today : Int) (currentDate : String) (st : MemState) :
    Snapshot × MemState :=
  let uptimeHours := (now - st.startTime).fdiv 3600000
  let (todayReq, st1) := getTodayRequestsM today st
  let (top, st2) := getTopEndpointsM 5 st1
  let (all, st3) := getAllRequestCountsM st2
  let (hist, st4) := getDailyHistoryM today st3
  ({ totalRequests := st.totalRequests, todayRequests := todayReq,
     uptimeHours := uptimeHours, topEndpoints := top, requestCounts := all,
     dailyHistory := hist, currentDate := currentDate }, st4)

/-- `reset()`: clear both maps, zero the total, re-stamp `startTime` with
the clock reading `now` taken while `reset` executes. -/
def reset (now : Int) (_st : MemState) : Unit × MemState :=
  ((), { requestCounts := [], totalRequests := 0, dailyRequests := [], startTime := now })

/-! ### Event traces -/

/-- One `trackRequest` call: its arguments plus the day number the clock
showed during the call. -/
structure Ev where
  path : String
  method : String
  today : Int
  deriving Repr, DecidableEq

/-- Run a sequence of `trackRequest` calls left to right. -/
def run (evs : List Ev) (st : MemState) : MemState :=
  evs.foldl (fun s e => trackRequest e.path e.method e.today s) st

/-! ## The gateway middleware of src/index.js

The middleware captures `originalJson = res.json`, `originalSend =
res.send`, `originalEnd = res.end` (the framework implementations), then
reassigns each of `res.json`, `res.send`, `res.end` to call the local
closure `trackRequest` (here `mwTrackClosure`) and delegate to the
captured original. In Express 4 the framework method `json(obj)` finishes
with `return this.send(body)` and the framework `send(body)` finishes with
`this.end(chunk, encoding)`; both go through `this`, the live response
object, whose `send`/`end` are the PATCHED methods. The embedding threads
the number of `requestTracker.trackRequest` invocations through that call
chain. `req.path` and `res.statusCode` are unchanged along the chain. -/

/-- The request data the middleware closure reads. -/
structure MwRequest where
  path : String
  method : String
  deriving Repr, DecidableEq

/-- The guard of the middleware closure:
`req.path.startsWith("/api/") && res.statusCode < 400` (the source uses a
single-quoted literal). -/
def mwShouldTrack (req : MwRequest) (statusCode : Nat) : Bool :=
  jsStartsWith req.path "/api/" && decide (statusCode < 400)

/-- The local `trackRequest` closure of the middleware: if the guard holds
it calls `requestTracker.trackRequest(...)` (here: bump the invocation
count `n`), else does nothing. -/
def mwTrackClosure (req : MwRequest) (statusCode : Nat) (n : Nat) : Nat :=
  if mwShouldTrack req statusCode then n + 1 else n

/-- The captured framework `end`: terminates the response, no tracking. -/
def mwOriginalEnd (n : Nat) : Nat := n

/-- Patched `res.end`: run the tracking closure, then the original `end`. -/
def mwPatchedEnd (req : MwRequest) (statusCode : Nat) (n : Nat) : Nat :=
  mwOriginalEnd (mwTrackClosure req statusCode n)

/-- The captured framework `send`: its body ends in `this.end(...)`, which
resolves to the patched `end` on the live response object. -/
def mwOriginalSend (req : MwRequest) (statusCode : Nat) (n : Nat) : Nat :=
  mwPatchedEnd req statusCode n

/-- Patched `res.send`: run the tracking closure, then the original `send`. -/
def mwPatchedSend (req : MwRequest) (statusCode : Nat) (n : Nat) : Nat :=
  mwOriginalSend req statusCode (mwTrackClosure req statusCode n)

/-- The captured framework `json`: its body ends in `return this.send(body)`,
which resolves to the patched `send` on the live response object. -/
def mwOriginalJson (req : MwRequest) (statusCode : Nat) (n : Nat) : Nat :=
  mwPatchedSend req statusCode n

/-- Patched `res.json`: run the tracking closure, then the original `json`.
(The earlier operator-augmentation patch of `res.json` in the same
middleware is overwritten by this reassignment and never runs.) -/
def mwPatchedJson (req : MwRequest) (statusCode : Nat) (n : Nat) : Nat :=
  mwOriginalJson req statusCode (mwTrackClosure req statusCode n)

/-- How a handler finishes its response. -/
inductive FinishMode
  | viaJson
  | viaSend
  | viaEnd
  deriving Repr, DecidableEq

/-- Total number of `requestTracker.trackRequest` invocations performed by
the patched response-method chain for one completed request. -/
def trackerInvocations (mode : FinishMode) (req : MwRequest) (statusCode : Nat) : Nat :=
  match mode with
  | .viaJson => mwPatchedJson req statusCode 0
  | .viaSend => mwPatchedSend req statusCode 0
  | .viaEnd => mwPatchedEnd req statusCode 0

/-! ## getStatistics of the sqlite backend

`getStatistics()` of the sqlite backend awaits six reads (total, today,
top-5 endpoints, daily history, the `start_time` row, all request counts).
If every read resolves it assembles the snapshot; if any rejects, the
surrounding try/catch returns the all-zero/empty snapshot instead of
letting the error propagate. The reads are embedded as abstract outcomes
`Except String _` (the sqlite callbacks reject with an error object,
embedded as a string). -/

/-- Outcomes of the six underlying reads awaited by the sqlite
`getStatistics`. -/
structure SqlReads where
  totalRequests : Except String Nat
  todayRequests : Except String Nat
  topEndpoints : Except String (List (String × Nat))
  dailyHistory : Except String (List DayEntry)
  startTimeRow : Except String Int
  allRequestCounts : Except String (List (String × Nat))
  deriving Repr

/-- The all-zero/empty snapshot built by the catch branch. -/
def zeroSnapshot (currentDate : String) : Snapshot :=
  { totalRequests := 0, todayRequests := 0, uptimeHours := 0,
    topEndpoints := [], requestCounts := [], dailyHistory := [],
    currentDate := currentDate }

/-- True when at least one underlying read rejected. -/
def anyReadFailed (r : SqlReads) : Bool :=
  !r.totalRequests.isOk || !r.todayRequests.isOk || !r.topEndpoints.isOk ||
  !r.dailyHistory.isOk || !r.startTimeRow.isOk || !r.allRequestCounts.isOk

/-- The sqlite `getStatistics()`: an async function, so its result is an
`Except` (a resolved or rejected promise). The try/catch makes it resolve
in every case: with the assembled snapshot when all reads succeed, with
`zeroSnapshot` when any read fails. -/
def getStatisticsSql (now : Int) (currentDate : String) (r : SqlReads) :
    Except String Snapshot :=
  match r.totalRequests, r.todayRequests, r.topEndpoints, r.dailyHistory,
      r.startTimeRow, r.allRequestCounts with
  | .ok total, .ok today, .ok top, .ok hist, .ok startT, .ok all =>
    .ok { totalRequests := total, todayRequests := today,
          uptimeHours := (now - startT).fdiv 3600000,
          topEndpoints := top, requestCounts := all, dailyHistory := hist,
          currentDate := currentDate }
  | _, _, _, _, _, _ => .ok (zeroSnapshot currentDate)

/-! ## Step and run lemmas for the in-memory backend -/

theorem run_nil (st : MemState) : run [] st = st := rfl

theorem run_cons (e : Ev) (evs : List Ev) (st : MemState) :
    run (e :: evs) st = run evs (trackRequest e.path e.method e.today st) := rfl

theorem totalRequests_trackRequest (q mm : String) (today : Int) (st : MemState) :
    (trackRequest q mm today st).totalRequests = st.totalRequests + 1 := by
  simp [trackRequest]

theorem getRequestCountM_trackRequest (p m q mm : String) (today : Int) (st : MemState) :
    (getRequestCountM p m (trackRequest q mm today st)).1
      = (getRequestCountM p m st).1
        + (if endpointKey q mm = endpointKey p m then 1 else 0) := by
  by_cases h : endpointKey q mm = endpointKey p m
  · simp [getRequestCountM, trackRequest, h, mapGet_mapSet_self]
  · simp [getRequestCountM, trackRequest, mapGet_mapSet_ne _ _ _ _ h, h]

theorem getRequestsForDateM_trackRequest (d : Int) (q mm : String) (today : Int)
    (st : MemState) :
    (getRequestsForDateM d (trackRequest q mm today st)).1
      = (getRequestsForDateM d st).1 + (if today = d then 1 else 0) := by
  by_cases h : today = d
  · simp [getRequestsForDateM, trackRequest, h, mapGet_mapSet_self]
  · simp [getRequestsForDateM, trackRequest, mapGet_mapSet_ne _ _ _ _ h, h]

theorem totalRequests_run (evs : List Ev) (st : MemState) :
    (run evs st).totalRequests = st.totalRequests + evs.length := by
  induction evs generalizing st with
  | nil => simp [run_nil]
  | cons e evs ih =>
    rw [run_cons, ih, totalRequests_trackRequest]
    simp only [List.length_cons]
    omega

theorem getRequestCountM_run (p m : String) (evs : List Ev) (st : MemState) :
    (getRequestCountM p m (run evs st)).1
      = (getRequestCountM p m st).1
        + evs.countP (fun e => endpointKey e.path e.method == endpointKey p m) := by
  induction evs generalizing st with
  | nil => simp [run_nil]
  | cons e evs ih =>
    rw [run_cons, ih, getRequestCountM_trackRequest, List.countP_cons]
    by_cases h : endpointKey e.path e.method = endpointKey p m
    · simp [h]
      omega
    · simp [h]

/-! ## Claim theorems -/

/-- C1. Claim: for every request whose path starts with `/api/` and whose
response status code is < 400, the response-method patching invokes
`trackRequest` exactly once per completed request, regardless of whether
the handler finishes via `json`, `send`, or `end`. The code violates
this: because the original framework `json` delegates to the patched
`send` which delegates to the patched `end`, the tracking closure fires
three times on a `json` finish and twice on a `send` finish; only an
`end` finish tracks exactly once. Evaluated here at the concrete request
`GET /api/foo` with status 200. -/
theorem C1_middleware_overcounts :
    trackerInvocations .viaJson ⟨"/api/foo", "GET"⟩ 200 = 3 ∧
    trackerInvocations .viaSend ⟨"/api/foo", "GET"⟩ 200 = 2 ∧
    trackerInvocations .viaEnd ⟨"/api/foo", "GET"⟩ 200 = 1 := by
  decide

/-- C2. For every sequence of `trackRequest` calls starting from a fresh
store (`MemState.mk0`) or a just-reset store, `getTotalRequests` after
all calls complete returns exactly the number of calls. -/
theorem C2_total_equals_number_of_tracks (evs : List Ev) (t now : Int) (st : MemState) :
    (getTotalRequestsM (run evs (MemState.mk0 t))).1 = evs.length ∧
    (getTotalRequestsM (run evs (reset now st).2)).1 = evs.length := by
  constructor
  · rw [show (getTotalRequestsM (run evs (MemState.mk0 t))).1
        = (run evs (MemState.mk0 t)).totalRequests from rfl]
    rw [totalRequests_run, show (MemState.mk0 t).totalRequests = 0 from rfl]
    exact Nat.zero_add _
  · rw [show (getTotalRequestsM (run evs (reset now st).2)).1
        = (run evs (reset now st).2).totalRequests from rfl]
    rw [totalRequests_run, show (reset now st).2.totalRequests = 0 from rfl]
    exact Nat.zero_add _

/-- C3. Starting from a fresh store, `getRequestCount(path, method)` equals
the number of `trackRequest` calls whose canonical key equals
`endpointKey path method` — independent of interleaved calls for other
keys — and is 0 when no call had that key. -/
theorem C3_per_endpoint_count (evs : List Ev) (p m : String) (t : Int) :
    (getRequestCountM p m (run evs (MemState.mk0 t))).1
      = evs.countP (fun e => endpointKey e.path e.method == endpointKey p m) ∧
    (evs.countP (fun e => endpointKey e.path e.method == endpointKey p m) = 0 →
      (getRequestCountM p m (run evs (MemState.mk0 t))).1 = 0) := by
  have h := getRequestCountM_run p m evs (MemState.mk0 t)
  rw [show (getRequestCountM p m (MemState.mk0 t)).1 = 0 from rfl] at h
  rw [Nat.zero_add] at h
  exact ⟨h, fun h0 => by rw [h, h0]⟩

/-- C3 witness: two calls for key GET /weather and one for key GET /other,
queried with lower-case method m2 = "get"; the count is 2, and the
never-tracked key POST /weather reads 0. -/
theorem C3_per_endpoint_count_witness :
    (getRequestCountM "/weather" "get"
        (run [⟨"/weather", "GET", 0⟩, ⟨"/other", "GET", 0⟩, ⟨"/weather", "GET", 1⟩]
          (MemState.mk0 0))).1 = 2 ∧
    ([⟨"/weather", "GET", 0⟩, ⟨"/other", "GET", 0⟩, ⟨"/weather", "GET", 1⟩] : List Ev).countP
        (fun e => endpointKey e.path e.method == endpointKey "/weather" "POST") = 0 ∧
    (getRequestCountM "/weather" "POST"
        (run [⟨"/weather", "GET", 0⟩, ⟨"/other", "GET", 0⟩, ⟨"/weather", "GET", 1⟩]
          (MemState.mk0 0))).1 = 0 := by
  refine ⟨?_, by decide, ?_⟩
  · rw [(C3_per_endpoint_count
        [⟨"/weather", "GET", 0⟩, ⟨"/other", "GET", 0⟩, ⟨"/weather", "GET", 1⟩]
        "/weather" "get" 0).1]
    decide
  · exact (C3_per_endpoint_count
        [⟨"/weather", "GET", 0⟩, ⟨"/other", "GET", 0⟩, ⟨"/weather", "GET", 1⟩]
        "/weather" "POST" 0).2 (by decide)

/-- C4. `getDailyHistory()` always returns exactly 7 entries, whose dates
are the consecutive days `today - 6, ..., today` in strictly ascending
order ending today, and any listed day with no tracked events (no day
bucket in the store) has count 0. -/
theorem C4_daily_history_shape (today : Int) (st : MemState) :
    ((getDailyHistoryM today st).1).length = 7 ∧
    ((getDailyHistoryM today st).1).map DayEntry.date
      = [today - 6, today - 5, today - 4, today - 3, today - 2, today - 1, today] ∧
    ∀ e ∈ (getDailyHistoryM today st).1,
      mapGet e.date st.dailyRequests = none → e.count = 0 := by
  refine ⟨rfl, ?_, ?_⟩
  · rw [show (getDailyHistoryM today st).1
        = (List.range 7).map (fun j =>
            ({ date := today - (6 - (j : Int)),
               count := (mapGet (today - (6 - (j : Int))) st.dailyRequests).getD 0 }
              : DayEntry)) from rfl]
    rw [show List.range 7 = [0, 1, 2, 3, 4, 5, 6] from rfl]
    norm_num [List.map_cons, List.map_nil]
  · intro e he hnone
    simp only [getDailyHistoryM, List.mem_map, List.mem_range] at he
    obtain ⟨j, _, rfl⟩ := he
    simp only at hnone ⊢
    rw [hnone]
    rfl

/-- C4 witness: with an empty store and today = day 0, the day `-6` entry
is in the history, its bucket is absent, and its count is 0. -/
theorem C4_daily_history_shape_witness :
    (⟨-6, 0⟩ : DayEntry) ∈ (getDailyHistoryM 0 (MemState.mk0 0)).1 ∧
    mapGet (-6 : Int) (MemState.mk0 0).dailyRequests = none ∧
    (⟨-6, 0⟩ : DayEntry).count = 0 := by
  refine ⟨by decide, rfl, ?_⟩
  exact (C4_daily_history_shape 0 (MemState.mk0 0)).2.2 ⟨-6, 0⟩ (by decide) rfl

/-! ### Lemmas about the stable descending sort of getTopEndpoints -/

theorem mem_insertByCountDesc (a x : String × Nat) (l : List (String × Nat)) :
    a ∈ insertByCountDesc x l ↔ a = x ∨ a ∈ l := by
  induction l with
  | nil => simp [insertByCountDesc]
  | cons y ys ih =>
    by_cases h : y.2 ≤ x.2
    · simp [insertByCountDesc, h]
    · simp [insertByCountDesc, h, ih]
      tauto

theorem sorted_insertByCountDesc (x : String × Nat) (l : List (String × Nat))
    (hl : List.Sorted (fun a b : String × Nat => b.2 ≤ a.2) l) :
    List.Sorted (fun a b : String × Nat => b.2 ≤ a.2) (insertByCountDesc x l) := by
  induction l with
  | nil => simp [insertByCountDesc]
  | cons y ys ih =>
    rw [List.sorted_cons] at hl
    obtain ⟨hy, hys⟩ := hl
    by_cases h : y.2 ≤ x.2
    · rw [show insertByCountDesc x (y :: ys) = x :: y :: ys from by
        simp [insertByCountDesc, h]]
      rw [List.sorted_cons]
      refine ⟨?_, by rw [List.sorted_cons]; exact ⟨hy, hys⟩⟩
      intro b hb
      rw [List.mem_cons] at hb
      rcases hb with rfl | hb
      · exact h
      · exact le_trans (hy b hb) h
    · rw [show insertByCountDesc x (y :: ys) = y :: insertByCountDesc x ys from by
        simp [insertByCountDesc, h]]
      rw [List.sorted_cons]
      refine ⟨?_, ih hys⟩
      intro b hb
      rw [mem_insertByCountDesc] at hb
      rcases hb with rfl | hb
      · exact le_of_lt (Nat.lt_of_not_le h)
      · exact hy b hb

theorem sorted_sortByCountDesc (l : List (String × Nat)) :
    List.Sorted (fun a b : String × Nat => b.2 ≤ a.2) (sortByCountDesc l) := by
  induction l with
  | nil => simp [sortByCountDesc]
  | cons x xs ih => exact sorted_insertByCountDesc x (sortByCountDesc xs) ih

theorem filter_insertByCountDesc (c : Nat) (x : String × Nat) (l : List (String × Nat)) :
    (insertByCountDesc x l).filter (fun p => p.2 == c)
      = if x.2 = c then x :: l.filter (fun p => p.2 == c)
        else l.filter (fun p => p.2 == c) := by
  induction l with
  | nil =>
    by_cases hx : x.2 = c <;>
      simp [insertByCountDesc, List.filter_cons, hx]
  | cons y ys ih =>
    by_cases h : y.2 ≤ x.2
    · rw [show insertByCountDesc x (y :: ys) = x :: y :: ys from by
        simp [insertByCountDesc, h]]
      by_cases hx : x.2 = c <;> simp [List.filter_cons, hx]
    · rw [show insertByCountDesc x (y :: ys) = y :: insertByCountDesc x ys from by
        simp [insertByCountDesc, h]]
      by_cases hx : x.2 = c
      · have hy : ¬(y.2 = c) := fun hy => h (le_of_eq (hy.trans hx.symm))
        simp [List.filter_cons, hx, hy, ih]
      · by_cases hy : y.2 = c <;> simp [List.filter_cons, hx, hy, ih]

theorem filter_sortByCountDesc (c : Nat) (l : List (String × Nat)) :
    (sortByCountDesc l).filter (fun p => p.2 == c) = l.filter (fun p => p.2 == c) := by
  induction l with
  | nil => rfl
  | cons x xs ih =>
    rw [show sortByCountDesc (x :: xs) = insertByCountDesc x (sortByCountDesc xs) from rfl]
    rw [filter_insertByCountDesc]
    by_cases hx : x.2 = c <;> simp [List.filter_cons, hx, ih]

theorem filter_take_eq_append {α : Type} (p : α → Bool) (k : Nat) (l : List α) :
    ∃ t, l.filter p = (l.take k).filter p ++ t := by
  induction l generalizing k with
  | nil => exact ⟨[], by simp⟩
  | cons x xs ih =>
    cases k with
    | zero => exact ⟨(x :: xs).filter p, by simp⟩
    | succ k =>
      obtain ⟨t, ht⟩ := ih k
      refine ⟨t, ?_⟩
      by_cases hx : p x <;> simp [List.filter, hx, ht]

/-- C5. `getTopEndpoints(k)` returns at most `k` entries, sorted by count
in descending order, and ties are resolved first-seen-first: for every
count value `c`, the insertion-ordered entry list of the store filtered to
count `c` is the returned entries with count `c` followed by the
remaining (later-seen) ones — so among returned equal-count entries the
one tracked first appears first. -/
theorem C5_top_endpoints (st : MemState) (k : Nat) :
    ((getTopEndpointsM k st).1).length ≤ k ∧
    List.Sorted (fun a b : String × Nat => b.2 ≤ a.2) (getTopEndpointsM k st).1 ∧
    ∀ c : Nat, ∃ t, st.requestCounts.filter (fun p => p.2 == c)
      = ((getTopEndpointsM k st).1).filter (fun p => p.2 == c) ++ t := by
  refine ⟨?_, ?_, ?_⟩
  · rw [show (getTopEndpointsM k st).1 = (sortByCountDesc st.requestCounts).take k from rfl]
    simp [List.length_take]
  · exact List.Pairwise.sublist (List.take_sublist _ _) (sorted_sortByCountDesc _)
  · intro c
    obtain ⟨t, ht⟩ := filter_take_eq_append (fun p => p.2 == c) k
      (sortByCountDesc st.requestCounts)
    exact ⟨t, by rw [← filter_sortByCountDesc c st.requestCounts, ht]; rfl⟩

/-- C6. Every read immediately after `reset()` returns zero or an empty
collection, and the start time observed after reset (the clock value
`now` stamped during `reset`, which is at or after the call time
`tCall`) is ≥ `tCall`. -/
theorem C6_reset_zeroes_everything (st : MemState) (tCall now : Int) (p m : String)
    (today d : Int) (k : Nat) (hcall : tCall ≤ now) :
    (getTotalRequestsM (reset now st).2).1 = 0 ∧
    (getRequestCountM p m (reset now st).2).1 = 0 ∧
    (getTodayRequestsM today (reset now st).2).1 = 0 ∧
    (getRequestsForDateM d (reset now st).2).1 = 0 ∧
    (getAllRequestCountsM (reset now st).2).1 = [] ∧
    (getTopEndpointsM k (reset now st).2).1 = [] ∧
    tCall ≤ (reset now st).2.startTime := by
  refine ⟨rfl, rfl, rfl, rfl, rfl, ?_, hcall⟩
  rw [show (getTopEndpointsM k (reset now st).2).1
      = (sortByCountDesc []).take k from rfl]
  simp [sortByCountDesc]

/-- C6 witness: reset at clock value 7 of a store with one tracked event,
called at time 5. -/
theorem C6_reset_zeroes_everything_witness :
    (5 : Int) ≤ 7 ∧
    (getTotalRequestsM (reset 7 (trackRequest "/a" "GET" 3 (MemState.mk0 0))).2).1 = 0 ∧
    (getRequestCountM "/a" "GET" (reset 7 (trackRequest "/a" "GET" 3 (MemState.mk0 0))).2).1 = 0 ∧
    (5 : Int) ≤ (reset 7 (trackRequest "/a" "GET" 3 (MemState.mk0 0))).2.startTime := by
  have h := C6_reset_zeroes_everything (trackRequest "/a" "GET" 3 (MemState.mk0 0))
    5 7 "/a" "GET" 3 3 5 (by norm_num)
  exact ⟨by norm_num, h.1, h.2.1, h.2.2.2.2.2.2⟩

/-- C7. The sqlite `getStatistics()` never propagates an error to its
caller: for every combination of underlying read outcomes it resolves
(returns `Except.ok`), and whenever any underlying read failed it
resolves with the all-zero/empty snapshot. -/
theorem C7_statistics_never_fails (now : Int) (cd : String) (r : SqlReads) :
    (∃ s, getStatisticsSql now cd r = .ok s) ∧
    (anyReadFailed r = true → getStatisticsSql now cd r = .ok (zeroSnapshot cd)) := by
  obtain ⟨f1, f2, f3, f4, f5, f6⟩ := r
  cases f1 <;> cases f2 <;> cases f3 <;> cases f4 <;> cases f5 <;> cases f6 <;>
    simp [getStatisticsSql, anyReadFailed, Except.isOk, Except.toBool]

/-- C7 witness: a failing total-requests read makes `getStatistics` resolve
with the zero snapshot. -/
theorem C7_statistics_never_fails_witness :
    anyReadFailed ⟨.error "SQLITE_BUSY", .ok 3, .ok [], .ok [], .ok 0, .ok []⟩ = true ∧
    getStatisticsSql 0 "d" ⟨.error "SQLITE_BUSY", .ok 3, .ok [], .ok [], .ok 0, .ok []⟩
      = .ok (zeroSnapshot "d") := by
  refine ⟨rfl, ?_⟩
  exact (C7_statistics_never_fails 0 "d"
    ⟨.error "SQLITE_BUSY", .ok 3, .ok [], .ok [], .ok 0, .ok []⟩).2 rfl

/-- C8. Counters are non-negative and only `reset` ever decreases one:
`trackRequest` strictly increments the total and never decreases any
per-endpoint or per-day counter, and the read methods leave the store
state untouched. -/
theorem C8_counters_monotone (st : MemState) (p m : String) (today : Int)
    (q mm : String) (d : Int) :
    (getRequestCountM q mm (trackRequest p m today st)).1
      ≥ (getRequestCountM q mm st).1 ∧
    (getTotalRequestsM (trackRequest p m today st)).1
      = (getTotalRequestsM st).1 + 1 ∧
    (getRequestsForDateM d (trackRequest p m today st)).1
      ≥ (getRequestsForDateM d st).1 ∧
    0 ≤ (getRequestCountM q mm st).1 ∧
    0 ≤ (getTotalRequestsM st).1 ∧
    0 ≤ (getRequestsForDateM d st).1 ∧
    (getRequestCountM q mm st).2 = st ∧
    (getTotalRequestsM st).2 = st ∧
    (getRequestsForDateM d st).2 = st := by
  refine ⟨?_, totalRequests_trackRequest p m today st, ?_,
    Nat.zero_le _, Nat.zero_le _, Nat.zero_le _, rfl, rfl, rfl⟩
  · rw [getRequestCountM_trackRequest]
    by_cases h : endpointKey p m = endpointKey q mm <;> simp [h]
  · rw [getRequestsForDateM_trackRequest]
    by_cases h : today = d <;> simp [h]

/-- C9. Key canonicalization is deterministic and case-normalized: when
two method strings upper-case to the same string, they build the same
canonical key `UPPERCASE(method) + space + path`, so a `trackRequest`
with one of them is observed by a `getRequestCount` with the other. -/
theorem C9_key_case_normalized (st : MemState) (p m1 m2 : String) (today : Int)
    (h : jsToUpperCase m1 = jsToUpperCase m2) :
    endpointKey p m1 = endpointKey p m2 ∧
    (getRequestCountM p m2 (trackRequest p m1 today st)).1
      = (getRequestCountM p m2 st).1 + 1 := by
  have hk : endpointKey p m1 = endpointKey p m2 := by
    unfold endpointKey
    rw [h]
  refine ⟨hk, ?_⟩
  rw [getRequestCountM_trackRequest, if_pos hk]

/-- C9 witness: tracking with method "get" is observed by a query with
method "GeT" on the fresh store. -/
theorem C9_key_case_normalized_witness :
    jsToUpperCase "get" = jsToUpperCase "GeT" ∧
    endpointKey "/x" "get" = endpointKey "/x" "GeT" ∧
    (getRequestCountM "/x" "GeT" (trackRequest "/x" "get" 0 (MemState.mk0 0))).1
      = (getRequestCountM "/x" "GeT" (MemState.mk0 0)).1 + 1 := by
  have h := C9_key_case_normalized (MemState.mk0 0) "/x" "get" "GeT" 0 (by decide)
  exact ⟨by decide, h.1, h.2⟩

/-- C10. Every read method of the in-memory store returns the store state
unchanged in its second component (no mutation), so two reads with no
intervening `trackRequest` or `reset` observe the same store — shown for
a read result queried before and after another read. -/
theorem C10_reads_leave_state_unchanged (st : MemState) (p m : String)
    (today d now : Int) (k : Nat) (cd : String) :
    (getRequestCountM p m st).2 = st ∧
    (getAllRequestCountsM st).2 = st ∧
    (getTotalRequestsM st).2 = st ∧
    (getTodayRequestsM today st).2 = st ∧
    (getRequestsForDateM d st).2 = st ∧
    (getDailyHistoryM today st).2 = st ∧
    (getTopEndpointsM k st).2 = st ∧
    (getStatisticsM now today cd st).2 = st ∧
    (getTotalRequestsM (getRequestCountM p m st).2).1 = (getTotalRequestsM st).1 ∧
    (getRequestCountM p m (getStatisticsM now today cd st).2).1
      = (getRequestCountM p m st).1 := by
  exact ⟨rfl, rfl, rfl, rfl, rfl, rfl, rfl, rfl, rfl, rfl⟩

end WataruApi
